import Mathlib

/-!
Verification development for the Image_chat browser client
(`static/js/modules/{api,config,state,workflow}.js` and `ui/gallery.js`,
`ui/forms.js`).  The stateful JavaScript is shallowly embedded as pure
Lean functions over explicit state values; text is modelled at character
granularity (`List Char`), matching the decoded UTF-8 text the code
operates on.
-/

namespace ImageChat

/-! ## Stream response decoder (`api.js`, `editImageStream` / `generateImageStream`)

Both streaming functions contain the identical decode loop; it is embedded
once.  `JSON.parse` is a browser built-in (an external collaborator), so the
decoder is parameterized by a parse function `parse : List Char → Option Frame`
returning `none` exactly when `JSON.parse` would throw.  Of a parsed payload
the loop reads only the `error` field (`if (imageData.error)`), so a `Frame`
records that field (string-valued per the backend contract) plus the payload's
`index` used for ordering. -/

/-- The decoded JSON payload of one frame, as far as the loop inspects it. -/
structure Frame where
  error : Option String
  index : Nat
deriving DecidableEq

/-- JavaScript truthiness of the string-valued `error` field:
`if (imageData.error)` is taken exactly when the field is present and
non-empty. -/
def errTruthy : Option String → Bool
  | none => false
  | some s => !(s == "")

/-- State of the decode loop: `buffer`, `totalReceived`, `hasError`,
`errorMessage` and (as the observable effect of `onProgressCallback`)
the list of payloads passed to the callback, in call order. -/
structure DecState where
  buffer : List Char
  totalReceived : Nat
  hasError : Bool
  errorMessage : String
  callbacks : List Frame
deriving DecidableEq

/-- Initial loop state (`buffer = ''`, counters zero, no callback yet). -/
def initState : DecState := ⟨[], 0, false, "", []⟩

/-- `buffer.split('\n')` followed by `buffer = lines.pop()`: the complete
lines (without their newline) and the trailing incomplete remainder. -/
def splitLines : List Char → List (List Char) × List Char
  | [] => ([], [])
  | c :: cs =>
    let p := splitLines cs
    if c = '\n' then ([] :: p.1, p.2)
    else
      match p.1 with
      | [] => ([], c :: p.2)
      | l :: ls => ((c :: l) :: ls, p.2)

/-- The fixed SSE frame marker `'data: '`. -/
def dataMark : List Char := "data: ".toList

/-- JavaScript `!line.trim()`: the line is blank iff every character is
whitespace. -/
def isBlank (line : List Char) : Bool := line.all Char.isWhitespace

/-- One iteration of `for (const line of lines)` in the decode loop:
skip blank lines; on a `'data: '` line strip the marker, skip the
`'[DONE]'` sentinel, otherwise `JSON.parse`; a parse failure is logged and
skipped; a truthy `error` field records the message; any other payload is
counted and forwarded to the callback.  Lines without the marker fall
through silently. -/
def processLine (parse : List Char → Option Frame) (st : DecState)
    (line : List Char) : DecState :=
  if isBlank line then st
  else if dataMark.isPrefixOf line then
    if line.drop dataMark.length = "[DONE]".toList then st
    else
      match parse (line.drop dataMark.length) with
      | none => st
      | some f =>
        if errTruthy f.error then
          { st with hasError := true, errorMessage := (f.error).getD ("") }
        else
          { st with totalReceived := st.totalReceived + 1,
                    callbacks := st.callbacks ++ [f] }
  else st

/-- One iteration of the outer `while` loop for a non-final chunk:
`buffer += decoder.decode(value)`, split on newline, hold the last
(possibly incomplete) element back as the new buffer, process every
complete line. -/
def feedChunk (parse : List Char → Option Frame) (st : DecState)
    (chunk : List Char) : DecState :=
  let p := splitLines (st.buffer ++ chunk)
  { p.1.foldl (processLine parse) st with buffer := p.2 }

/-- Run the whole read loop over the stream's chunk sequence.  When the
reader reports `done` the loop breaks; a leftover incomplete buffer is
discarded, exactly as in the source. -/
def runChunks (parse : List Char → Option Frame)
    (chunks : List (List Char)) : DecState :=
  chunks.foldl (feedChunk parse) initState

/-- Character-level reformulation of the loop used in proofs: feed one
character — a newline completes the buffered line and processes it, any
other character is appended to the buffer.  `feedText_eq_feedChunk` shows
it agrees with `feedChunk`. -/
def feedChar (parse : List Char → Option Frame) (st : DecState) (c : Char) : DecState :=
  if c = '\n' then { processLine parse st st.buffer with buffer := [] }
  else { st with buffer := st.buffer ++ [c] }

/-- Feed a text character by character. -/
def feedText (parse : List Char → Option Frame) (st : DecState)
    (text : List Char) : DecState :=
  text.foldl (feedChar parse) st

/-- The aggregate result `{success, totalReceived, error?}`. -/
structure StreamResult where
  success : Bool
  totalReceived : Nat
  error : Option String
deriving DecidableEq

/-- The three `return` statements after the read loop. -/
def finishState (st : DecState) : StreamResult :=
  if st.hasError then ⟨false, st.totalReceived, some st.errorMessage⟩
  else if st.totalReceived = 0 then ⟨false, 0, some ("未收到任何图片")⟩
  else ⟨true, st.totalReceived, none⟩

/-- The full streaming decode shared by `editImageStream` and
`generateImageStream`: consume all chunks, then build the result. -/
def decodeStream (parse : List Char → Option Frame)
    (chunks : List (List Char)) : StreamResult :=
  finishState (runChunks parse chunks)

/-! Specification-side views of a decode, used to state the claims:
the complete lines of a text, the payloads the loop would parse, and the
frames/images obtained from them. -/

/-- The payload of a line, when the loop would hand it to `JSON.parse`:
the line is non-blank, carries the frame marker, and is not the sentinel. -/
def payloadOf (line : List Char) : Option (List Char) :=
  if isBlank line then none
  else if dataMark.isPrefixOf line then
    if line.drop dataMark.length = "[DONE]".toList then none
    else some (line.drop dataMark.length)
  else none

/-- All frames successfully decoded from a line list. -/
def framesOf (parse : List Char → Option Frame)
    (lines : List (List Char)) : List Frame :=
  lines.filterMap (fun l => (payloadOf l).bind parse)

/-- The image frames among a frame list: those whose `error` field is not
truthy (these are counted and forwarded to the callback). -/
def imagesOf (fs : List Frame) : List Frame :=
  fs.filter (fun f => !errTruthy f.error)

/-- The error message the loop has recorded after seeing the frames `fs`,
starting from `d`: the message of the last truthy error frame, if any. -/
def recordedMsg (fs : List Frame) (d : String) : String :=
  fs.foldl (fun acc f => if errTruthy f.error then (f.error).getD ("") else acc) d

/-! ## AUTO-mode statistics (`state.js` auto state, `workflow.js` `startAutoLoop`)

One completed loop iteration of `startAutoLoop`, as it acts on
`autoState.stats`: read the slider value `k`, pre-increment `total` by `k`
(`incrementAutoTotalBy`), run the task, then either add the actual image
count to `success` (`incrementAutoSuccessBy`) or add `k` to `fail`
(`incrementAutoFailBy`) — both the `result.success === false` branch and a
thrown exception take the `fail` path. -/

/-- The AUTO statistics record `autoState.stats`. -/
structure AutoStats where
  total : Nat
  success : Nat
  fail : Nat
deriving DecidableEq

/-- Outcome of `runTaskOnce` within one iteration: success with `r` actual
images (`result.images.length`), or failure (an unsuccessful result or a
thrown exception). -/
inductive IterOutcome where
  | ok (r : Nat)
  | err
deriving DecidableEq

/-- The effect of one completed loop iteration on the statistics. -/
def stepIter (st : AutoStats) (k : Nat) (o : IterOutcome) : AutoStats :=
  let st1 : AutoStats := { st with total := st.total + k }
  match o with
  | .ok r => { st1 with success := st1.success + r }
  | .err => { st1 with fail := st1.fail + k }

/-- Statistics after a finite sequence of completed iterations, starting
from the zeroed stats produced by `resetAutoStats`. -/
def runAuto (iters : List (Nat × IterOutcome)) : AutoStats :=
  iters.foldl (fun st it => stepIter st it.1 it.2) ⟨0, 0, 0⟩

/-- Sum of the slider values of all iterations. -/
def sumK : List (Nat × IterOutcome) → Nat
  | [] => 0
  | (k, _) :: t => k + sumK t

/-- Sum of the actual image counts over successful iterations. -/
def sumOk : List (Nat × IterOutcome) → Nat
  | [] => 0
  | (_, .ok r) :: t => r + sumOk t
  | (_, .err) :: t => sumOk t

/-- Sum of the slider values over failed iterations. -/
def sumErr : List (Nat × IterOutcome) → Nat
  | [] => 0
  | (_, .ok _) :: t => sumErr t
  | (k, .err) :: t => k + sumErr t

/-- The hypothesis that a successful iteration never reports more images
than were requested (`r ≤ k`). -/
def iterBounded : Nat × IterOutcome → Prop
  | (k, .ok r) => r ≤ k
  | (_, .err) => True

/-- A successful iteration delivered exactly the requested count. -/
def iterExact : Nat × IterOutcome → Prop
  | (k, .ok r) => r = k
  | (_, .err) => True

/-! ## Concurrency rules (`config.js`, `CONCURRENCY_RULES` / `getConcurrencyRule`) -/

/-- One concurrency rule `{recommended, max, delay, hint}`. -/
structure ConcurrencyRule where
  recommended : Nat
  max : Nat
  delay : Nat
  hint : String
deriving DecidableEq

/-- The `'default'` rule of the table. -/
def defaultRule : ConcurrencyRule := ⟨2, 3, 1500, "推荐: 2 张 (默认设置)"⟩

/-- The static `CONCURRENCY_RULES` table, as an association list in source
order. -/
def CONCURRENCY_RULES : List (String × ConcurrencyRule) :=
  [("google/gemini-2.5-flash-image", ⟨4, 5, 1000, "推荐: 4 张 (Flash 高速模型)"⟩),
   ("google/gemini-3-pro-image-preview", ⟨1, 1, 3500, "限制: 1 张 (Pro 模型速率严格)"⟩),
   ("tuzi", ⟨5, 5, 500, "推荐: 5 张 (无速率限制)"⟩),
   ("openrouter", ⟨3, 4, 1000, "推荐: 3 张 (动态限制)"⟩),
   ("default", defaultRule)]

/-- `CONCURRENCY_RULES[key]` as an option. -/
def lookupRule (key : String) : Option ConcurrencyRule :=
  CONCURRENCY_RULES.lookup key

/-- `getConcurrencyRule(provider, model)`: for the `'google'` provider the
table is keyed by the model value, otherwise by the provider name; a miss
falls back to `CONCURRENCY_RULES['default']`. -/
def getConcurrencyRule (provider model : String) : ConcurrencyRule :=
  if provider = "google" then (lookupRule model).getD defaultRule
  else (lookupRule provider).getD defaultRule

/-- A lookup procedure following the specification's words for claim C6:
try the exact provider/model key first, then the provider-only key, then
the global `'default'` rule.  (Refinement foil — not translated from the
source.) -/
def getConcurrencyRuleChain (provider model : String) : ConcurrencyRule :=
  ((lookupRule model).orElse (fun _ => lookupRule provider)).getD defaultRule

/-- The adaptive inter-iteration delay of `startAutoLoop`:
`rule.delay * Math.max(1, currentImageCount / rule.recommended)`.
JavaScript numbers are modelled by exact rationals. -/
def computeDelay (rule : ConcurrencyRule) (n : Nat) : ℚ :=
  (rule.delay : ℚ) * max 1 ((n : ℚ) / (rule.recommended : ℚ))

/-! ## Capability gating (`ui/forms.js`, `updateResolutionAvailability`) -/

/-- The observable state of a resolution `<select>` control: its
`disabled` flag and current value. -/
structure ResControl where
  disabled : Bool
  value : String
deriving DecidableEq

/-- A `model_support` entry `{resolution: bool}`. -/
structure ModelSupportEntry where
  resolution : Bool
deriving DecidableEq

/-- `googleConfig.imageOptions`, restricted to the field the gating reads. -/
structure ImageOptions where
  model_support : List (String × ModelSupportEntry)
deriving DecidableEq

/-- `appConfig.providers.google`, restricted to `imageOptions` (which may
be absent). -/
structure GoogleProviderCfg where
  imageOptions : Option ImageOptions
deriving DecidableEq

/-- The application config as the gating reads it: `providers.google` may
itself be absent. -/
structure CapabilityCfg where
  google : Option GoogleProviderCfg
deriving DecidableEq

/-- `updateResolutionAvailability(mode, selectedModel, provider, appConfig)`
acting on the mode's resolution control (the `mode` argument only selects
which DOM element is touched).  Non-`'google'` providers, a missing config
and missing `imageOptions` all return early, leaving the control as it
was.  Otherwise `supportsResolution = (model_support[selectedModel] || {})
.resolution || false`; the control's `disabled` flag becomes its negation
and a non-supporting model also clears the value. -/
def updateResolutionAvailability (selectedModel provider : String)
    (appConfig : Option CapabilityCfg) (ctrl : ResControl) : ResControl :=
  if provider ≠ "google" then ctrl
  else
    match appConfig with
    | none => ctrl
    | some cfg =>
      match cfg.google with
      | none => ctrl
      | some g =>
        match g.imageOptions with
        | none => ctrl
        | some opts =>
          let supports := ((opts.model_support.lookup selectedModel).map
            ModelSupportEntry.resolution).getD false
          if supports then { ctrl with disabled := false }
          else ⟨true, ""⟩

/-! ## Bounded result feed (`ui/gallery.js`, AUTO branch of
`renderEditResults` / `renderGenerateResults`)

Both render functions run the identical append-then-trim logic on their
gallery element; the feed is embedded once over an arbitrary entry type. -/

/-- The fixed feed capacity `MAX_IMAGES`. -/
def MAX_IMAGES : Nat := 20

/-- One AUTO-mode render call: append the new items at the end of the
gallery, then, if the gallery now exceeds `MAX_IMAGES`, remove the oldest
`length - MAX_IMAGES` items from the front. -/
def appendFeed {α : Type} (gallery : List α) (images : List α) : List α :=
  if (gallery ++ images).length > MAX_IMAGES then
    (gallery ++ images).drop ((gallery ++ images).length - MAX_IMAGES)
  else gallery ++ images

/-! ## AUTO session state and stop (`state.js` `resetAutoState`,
`workflow.js` `stopAutoLoop`) -/

/-- The module-level `autoState` object of `state.js`. -/
structure AutoSession where
  enabled : Bool
  running : Bool
  mode : Option String
  stats : AutoStats
  sessionImages : List String
deriving DecidableEq

/-- `resetAutoState()`: every field back to its initial value. -/
def resetAutoState (_s : AutoSession) : AutoSession :=
  ⟨false, false, none, ⟨0, 0, 0⟩, []⟩

/-- `clearSessionImages()`. -/
def clearSessionImages (s : AutoSession) : AutoSession :=
  { s with sessionImages := [] }

/-- The workflow module's visible AUTO state: the shared `autoState` plus
the internal `autoLoopController.isRunning` flag. -/
structure WorkflowState where
  auto : AutoSession
  loopRunning : Bool
deriving DecidableEq

/-- `stopAutoLoop()`: `setAutoRunning(false)`, cut the controller flag,
`resetAutoState()`, `clearSessionImages()` (UI calls omitted — display
only). -/
def stopAutoLoop (w : WorkflowState) : WorkflowState :=
  let a1 := { w.auto with running := false }
  let w1 : WorkflowState := ⟨a1, false⟩
  let a2 := resetAutoState w1.auto
  let a3 := clearSessionImages a2
  ⟨a3, false⟩

/-- The Idle state: all flags down, stats zeroed, no session images. -/
def idleState : WorkflowState :=
  ⟨⟨false, false, none, ⟨0, 0, 0⟩, []⟩, false⟩

/-! ## Configuration loading (`config.js`, `loadConfiguration`) -/

/-- One model option `{value, text}` of a provider. -/
structure ModelOption where
  value : String
  text : String
deriving DecidableEq

/-- One provider entry of the capability table. -/
structure ProviderCfg where
  name : String
  apiKeyPlaceholder : String
  apiKeyStart : String
  defaultModel : String
  models : List ModelOption
deriving DecidableEq

/-- `defaultTemperature` of the config. -/
structure TemperatureCfg where
  edit : ℚ
  generate : ℚ
deriving DecidableEq

/-- The capability table shape shared by backend payloads and the
hardcoded fallback. -/
structure AppConfig where
  defaultProvider : String
  defaultTemperature : TemperatureCfg
  providers : List (String × ProviderCfg)
deriving DecidableEq

/-- The hardcoded `fallbackConfig` of `loadConfiguration`'s catch block. -/
def fallbackConfig : AppConfig :=
  { defaultProvider := "google",
    defaultTemperature := ⟨7/10, 8/10⟩,
    providers :=
      [("google",
        { name := "Google Gemini",
          apiKeyPlaceholder := "输入您的 Google Gemini API Key",
          apiKeyStart := "AIza",
          defaultModel := "gemini-2.5-flash-image-preview",
          models := [⟨"gemini-2.5-flash-image-preview", "Gemini 2.5 Flash"⟩] }),
       ("openrouter",
        { name := "OpenRouter",
          apiKeyPlaceholder := "输入您的 OpenRouter API Key",
          apiKeyStart := "sk-or-",
          defaultModel := "google/gemini-2.5-flash-image-preview:free",
          models := [⟨"google/gemini-2.5-flash-image-preview:free",
                      "OpenRouter - Gemini Flash"⟩] }),
       ("tuzi",
        { name := "兔子API",
          apiKeyPlaceholder := "输入您的兔子 API Key",
          apiKeyStart := "sk-",
          defaultModel := "gemini-2.5-flash-image",
          models := [⟨"gemini-2.5-flash-image", "兔子 - Gemini 2.5 Flash"⟩] })] }

/-- A parsed `/api/config` response body. -/
structure ConfigPayload where
  success : Bool
  config : Option AppConfig
  error : Option String
deriving DecidableEq

/-- The possible outcomes of `fetch('/api/config')` + `response.json()`:
the fetch rejects, the body is not valid JSON (`json()` rejects), or a
parsed payload is obtained. -/
inductive FetchOutcome where
  | rejected
  | badJson
  | ok (p : ConfigPayload)
deriving DecidableEq

/-- What `loadConfiguration` returns. -/
structure LoadResult where
  success : Bool
  config : Option AppConfig
  usingFallback : Bool
deriving DecidableEq

/-- The result built in the catch block: the fallback table, flagged. -/
def fallbackResult : LoadResult := ⟨true, some fallbackConfig, true⟩

/-- `loadConfiguration()`: a rejected fetch or malformed body lands in the
catch block; a payload with `success=false` throws (`result.error ||
'配置加载失败'`) and is also caught; all three produce `fallbackResult`.
Only a successful payload is returned as-is (no `usingFallback` field,
i.e. `false`). -/
def loadConfiguration : FetchOutcome → LoadResult
  | .rejected => fallbackResult
  | .badJson => fallbackResult
  | .ok p => if p.success then ⟨true, p.config, false⟩ else fallbackResult

/-- The fetch outcomes claim C9 quantifies over: network rejection,
malformed body, or a payload with `success=false`. -/
def failedFetch : FetchOutcome → Prop
  | .rejected => True
  | .badJson => True
  | .ok p => p.success = false

/-! ## Concrete stream data for the decoder claims

A few concrete SSE frames, and a parse function modelling what
`JSON.parse` returns on exactly these payloads (anything else is treated
as malformed, which is accurate for the inputs used below). -/

/-- Payload `{"index":1,"filename":"a.png"}`. -/
def payloadA : List Char :=
  "\x7b\"index\":1,\"filename\":\"a.png\"\x7d".toList

/-- Payload `{"index":2,"filename":"b.png"}`. -/
def payloadB : List Char :=
  "\x7b\"index\":2,\"filename\":\"b.png\"\x7d".toList

/-- Payload `{"error":""}` — an error field that is present but empty. -/
def payloadEmptyErr : List Char := "\x7b\"error\":\"\"\x7d".toList

/-- Payload `{"error":"boom"}`. -/
def payloadBoom : List Char := "\x7b\"error\":\"boom\"\x7d".toList

/-- `JSON.parse` on the concrete payloads above. -/
def exParse (s : List Char) : Option Frame :=
  if s = payloadA then some ⟨none, 1⟩
  else if s = payloadB then some ⟨none, 2⟩
  else if s = payloadEmptyErr then some ⟨some (""), 0⟩
  else if s = payloadBoom then some ⟨some ("boom"), 0⟩
  else none

/-- The frame line `data: {"index":1,...}\n`. -/
def frameLineA : List Char := dataMark ++ payloadA ++ ['\n']

/-- The frame line `data: {"index":2,...}\n`. -/
def frameLineB : List Char := dataMark ++ payloadB ++ ['\n']

/-- The sentinel line `data: [DONE]\n`. -/
def doneLine : List Char := dataMark ++ "[DONE]".toList ++ ['\n']

/-- The example stream text of claim C3: two image frames followed by the
sentinel. -/
def exText : List Char := frameLineA ++ frameLineB ++ doneLine

/-- Specification-side view of `supportsResolution` as computed inside
`updateResolutionAvailability` (false whenever the function would return
early before computing it). -/
def modelSupports (appConfig : Option CapabilityCfg) (model : String) : Bool :=
  match appConfig with
  | none => false
  | some cfg =>
    match cfg.google with
    | none => false
    | some g =>
      match g.imageOptions with
      | none => false
      | some opts =>
        ((opts.model_support.lookup model).map ModelSupportEntry.resolution).getD false

end ImageChat

namespace ImageChat

/-! # Theorems -/

/-! ## Helper lemmas -/

/-- Folding the AUTO iteration step accumulates the three sums
componentwise. -/
theorem runAuto_foldl (iters : List (Nat × IterOutcome)) (st : AutoStats) :
    iters.foldl (fun s it => stepIter s it.1 it.2) st =
      ⟨st.total + sumK iters, st.success + sumOk iters, st.fail + sumErr iters⟩ := by
  induction iters generalizing st with
  | nil => simp [sumK, sumOk, sumErr]
  | cons hd t ih =>
    obtain ⟨k, o⟩ := hd
    rw [List.foldl_cons, ih]
    cases o with
    | ok r =>
      simp only [stepIter, sumK, sumOk, sumErr, AutoStats.mk.injEq]
      exact ⟨by omega, by omega, trivial⟩
    | err =>
      simp only [stepIter, sumK, sumOk, sumErr, AutoStats.mk.injEq]
      exact ⟨by omega, trivial, by omega⟩

/-- Under `r ≤ k` for successes, the delivered plus failed counts never
exceed the requested total, with equality exactly when every success
delivered the full batch. -/
theorem auto_sums (iters : List (Nat × IterOutcome))
    (h : ∀ it ∈ iters, iterBounded it) :
    sumOk iters + sumErr iters ≤ sumK iters ∧
    (sumOk iters + sumErr iters = sumK iters ↔ ∀ it ∈ iters, iterExact it) := by
  induction iters with
  | nil => simp [sumOk, sumErr, sumK]
  | cons hd t ih =>
    obtain ⟨k, o⟩ := hd
    have hb := h _ (List.mem_cons_self _ _)
    have ht := ih (fun it hit => h it (List.mem_cons_of_mem _ hit))
    cases o with
    | ok r =>
      simp only [iterBounded] at hb
      simp only [sumOk, sumErr, sumK]
      constructor
      · omega
      · constructor
        · intro he
          intro it hit
          rcases List.mem_cons.mp hit with h1 | h1
          · subst h1; simp only [iterExact]; omega
          · exact (ht.2.mp (by omega)) it h1
        · intro hall
          have hk : r = k := by
            have := hall (k, IterOutcome.ok r) (List.mem_cons_self _ _)
            simpa [iterExact] using this
          have h2 := ht.2.mpr (fun it hit => hall it (List.mem_cons_of_mem _ hit))
          omega
    | err =>
      simp only [sumOk, sumErr, sumK]
      constructor
      · omega
      · constructor
        · intro he it hit
          rcases List.mem_cons.mp hit with h1 | h1
          · subst h1; simp [iterExact]
          · exact (ht.2.mp (by omega)) it h1
        · intro hall
          have h2 := ht.2.mpr (fun it hit => hall it (List.mem_cons_of_mem _ hit))
          omega

/-- A defaulted association-list lookup returns the default or a value
stored in the list. -/
theorem lookup_getD_mem (l : List (String × ConcurrencyRule)) (k : String)
    (d : ConcurrencyRule) :
    (l.lookup k).getD d = d ∨ (l.lookup k).getD d ∈ l.map Prod.snd := by
  induction l with
  | nil => left; rfl
  | cons a t ih =>
    obtain ⟨ka, va⟩ := a
    cases hk : k == ka with
    | true => right; simp [List.lookup, hk]
    | false =>
      rcases ih with h1 | h1
      · left; simpa [List.lookup, hk] using h1
      · right
        simp only [List.lookup, hk, List.map_cons, List.mem_cons]
        right
        simpa using h1

/-! ## Claim C2 — AUTO-mode accounting -/

/-- Claim C2, counterexample: one completed iteration with slider value 2
whose success delivered only 1 image (so `r ≤ k` holds) leaves
`success + fail = 1 ≠ 2 = total` although no iteration is in flight,
refuting the claimed equality. -/
theorem auto_stats_equality_cex :
    (∀ it ∈ [(2, IterOutcome.ok 1)], iterBounded it) ∧
    (runAuto [(2, IterOutcome.ok 1)]).success + (runAuto [(2, IterOutcome.ok 1)]).fail ≠
      (runAuto [(2, IterOutcome.ok 1)]).total := by
  constructor
  · intro it hit
    rcases List.mem_cons.mp hit with h1 | h1
    · subst h1; simp [iterBounded]
    · cases List.not_mem_nil _ h1
  · decide

/-- Claim C2 (amended): after any finite sequence of completed AUTO
iterations, `total = Σ kᵢ`, `success = Σ rᵢ` over successes and
`fail = Σ kᵢ` over failures; under `rᵢ ≤ kᵢ`, `success + fail ≤ total`,
with equality iff every successful iteration delivered exactly its
requested batch (not merely once no iteration is in flight). -/
theorem auto_stats_accounting (iters : List (Nat × IterOutcome))
    (h : ∀ it ∈ iters, iterBounded it) :
    runAuto iters = ⟨sumK iters, sumOk iters, sumErr iters⟩ ∧
    (runAuto iters).success + (runAuto iters).fail ≤ (runAuto iters).total ∧
    ((runAuto iters).success + (runAuto iters).fail = (runAuto iters).total ↔
      ∀ it ∈ iters, iterExact it) := by
  have hr : runAuto iters = ⟨sumK iters, sumOk iters, sumErr iters⟩ := by
    unfold runAuto
    rw [runAuto_foldl]
    simp
  refine ⟨hr, ?_, ?_⟩ <;> rw [hr]
  · exact (auto_sums iters h).1
  · exact (auto_sums iters h).2

/-- Witness for C2: two completed iterations — a full success of 2 and a
failed batch of 3 — give stats `⟨5, 2, 3⟩`. -/
theorem auto_stats_accounting_witness :
    runAuto [(2, IterOutcome.ok 2), (3, IterOutcome.err)] = ⟨5, 2, 3⟩ := by
  have hb : ∀ it ∈ [(2, IterOutcome.ok 2), (3, IterOutcome.err)], iterBounded it := by
    intro it hit
    rcases List.mem_cons.mp hit with h1 | h1
    · subst h1; simp [iterBounded]
    · rcases List.mem_cons.mp h1 with h2 | h2
      · subst h2; simp [iterBounded]
      · cases List.not_mem_nil _ h2
  exact (auto_stats_accounting [(2, IterOutcome.ok 2), (3, IterOutcome.err)] hb).1.trans
    (by decide)

/-! ## Claim C4 — AUTO-mode adaptive delay -/

/-- Claim C4: the inter-iteration delay is `base × max(1, N / recommended)`
— the base delay when `N ≤ recommended` (multiplier floored at 1) and
`base × N / recommended` above it; for the table rule with recommended=4
and base=1000 (the Google flash model), N=2 gives 1000 and N=8 gives
2000. -/
theorem auto_delay_formula :
    (∀ (rule : ConcurrencyRule) (n : Nat), 0 < rule.recommended →
      n ≤ rule.recommended → computeDelay rule n = rule.delay) ∧
    (∀ (rule : ConcurrencyRule) (n : Nat), 0 < rule.recommended →
      rule.recommended ≤ n →
      computeDelay rule n = (rule.delay : ℚ) * n / rule.recommended) ∧
    computeDelay (getConcurrencyRule ("google") ("google/gemini-2.5-flash-image")) 2 = 1000 ∧
    computeDelay (getConcurrencyRule ("google") ("google/gemini-2.5-flash-image")) 8 = 2000 := by
  have hlow : ∀ (rule : ConcurrencyRule) (n : Nat), 0 < rule.recommended →
      n ≤ rule.recommended → computeDelay rule n = rule.delay := by
    intro rule n hpos hle
    unfold computeDelay
    have h1 : ((n : ℚ) / (rule.recommended : ℚ)) ≤ 1 := by
      rw [div_le_one (by exact_mod_cast hpos)]
      exact_mod_cast hle
    rw [max_eq_left h1, mul_one]
  have hhigh : ∀ (rule : ConcurrencyRule) (n : Nat), 0 < rule.recommended →
      rule.recommended ≤ n →
      computeDelay rule n = (rule.delay : ℚ) * n / rule.recommended := by
    intro rule n hpos hle
    unfold computeDelay
    have h1 : (1 : ℚ) ≤ (n : ℚ) / (rule.recommended : ℚ) := by
      rw [le_div_iff₀ (by exact_mod_cast hpos), one_mul]
      exact_mod_cast hle
    rw [max_eq_right h1, mul_div_assoc]
  have hrule : getConcurrencyRule ("google") ("google/gemini-2.5-flash-image") =
      ⟨4, 5, 1000, ("推荐: 4 张 (Flash 高速模型)")⟩ := by decide
  refine ⟨hlow, hhigh, ?_, ?_⟩
  · rw [hrule, hlow ⟨4, 5, 1000, ("推荐: 4 张 (Flash 高速模型)")⟩ 2 (by norm_num) (by norm_num)]
    norm_num
  · rw [hrule, hhigh ⟨4, 5, 1000, ("推荐: 4 张 (Flash 高速模型)")⟩ 8 (by norm_num) (by norm_num)]
    norm_num

/-- Witness for C4: at the floor, a rule with recommended=4 and base
delay 1000 gives exactly the base delay for N=2. -/
theorem auto_delay_formula_witness :
    computeDelay ⟨4, 5, 1000, ("hint")⟩ 2 = ((1000 : Nat) : ℚ) :=
  auto_delay_formula.1 ⟨4, 5, 1000, ("hint")⟩ 2 (by norm_num) (by norm_num)

/-! ## Claim C5 — capability gating of the resolution control -/

/-- Claim C5, counterexample: for a non-Google provider
`updateResolutionAvailability` returns early, leaving a previously
enabled control enabled with its value intact instead of forcibly
disabling and clearing it. -/
theorem resolution_gating_cex :
    ¬ (∀ (model provider : String) (cfg : Option CapabilityCfg) (ctrl : ResControl),
        ((updateResolutionAvailability model provider cfg ctrl).disabled = false ↔
          (provider = "google" ∧ modelSupports cfg model = true)) ∧
        (¬ (provider = "google" ∧ modelSupports cfg model = true) →
          updateResolutionAvailability model provider cfg ctrl = ⟨true, ""⟩)) := by
  intro h
  have h2 := (h ("m") ("openrouter") none ⟨false, ("2K")⟩).2
  have h3 : updateResolutionAvailability ("m") ("openrouter") none ⟨false, ("2K")⟩ =
      ⟨true, ""⟩ := by
    refine h2 ?_
    rintro ⟨hp, -⟩
    exact absurd hp (by decide)
  exact absurd h3 (by decide)

/-- Claim C5 (amended): when the provider is Google and the config carries
`imageOptions`, the control is enabled iff the model-support entry grants
resolution, and a non-supporting model forcibly disables and clears it;
in every early-return case (non-Google provider, missing config, missing
Google provider entry, missing `imageOptions`) the control is left
unchanged rather than disabled. -/
theorem resolution_gating :
    (∀ (model provider : String) (cfg : Option CapabilityCfg) (ctrl : ResControl),
      provider ≠ "google" →
      updateResolutionAvailability model provider cfg ctrl = ctrl) ∧
    (∀ (model : String) (ctrl : ResControl),
      updateResolutionAvailability model ("google") none ctrl = ctrl) ∧
    (∀ (model : String) (ctrl : ResControl),
      updateResolutionAvailability model ("google") (some ⟨none⟩) ctrl = ctrl) ∧
    (∀ (model : String) (ctrl : ResControl),
      updateResolutionAvailability model ("google") (some ⟨some ⟨none⟩⟩) ctrl = ctrl) ∧
    (∀ (model : String) (opts : ImageOptions) (ctrl : ResControl),
      ((updateResolutionAvailability model ("google") (some ⟨some ⟨some opts⟩⟩)
          ctrl).disabled = false ↔
        modelSupports (some ⟨some ⟨some opts⟩⟩) model = true) ∧
      (modelSupports (some ⟨some ⟨some opts⟩⟩) model = false →
        updateResolutionAvailability model ("google") (some ⟨some ⟨some opts⟩⟩) ctrl =
          ⟨true, ""⟩) ∧
      (modelSupports (some ⟨some ⟨some opts⟩⟩) model = true →
        updateResolutionAvailability model ("google") (some ⟨some ⟨some opts⟩⟩) ctrl =
          ⟨false, ctrl.value⟩)) := by
  refine ⟨?_, fun _ _ => rfl, fun _ _ => rfl, fun _ _ => rfl, ?_⟩
  · intro model provider cfg ctrl hp
    simp [updateResolutionAvailability, hp]
  · intro model opts ctrl
    by_cases hs : ((opts.model_support.lookup model).map
        ModelSupportEntry.resolution).getD false
    · refine ⟨?_, ?_, ?_⟩
      · simp [updateResolutionAvailability, modelSupports, hs]
      · intro hfalse
        rw [show modelSupports (some ⟨some ⟨some opts⟩⟩) model = true by
          simpa [modelSupports] using hs] at hfalse
        cases hfalse
      · intro _
        cases ctrl
        simp [updateResolutionAvailability, hs]
    · rw [Bool.not_eq_true] at hs
      refine ⟨?_, ?_, ?_⟩
      · simp [updateResolutionAvailability, modelSupports, hs]
      · intro _
        simp [updateResolutionAvailability, hs]
      · intro htrue
        rw [show modelSupports (some ⟨some ⟨some opts⟩⟩) model = false by
          simpa [modelSupports] using hs] at htrue
        cases htrue

/-- Witness for C5: a Google model whose support entry grants resolution
enables a previously disabled control, and a non-Google provider leaves
an enabled control untouched. -/
theorem resolution_gating_witness :
    updateResolutionAvailability ("gemini-3-pro-image-preview") ("google")
      (some ⟨some ⟨some ⟨[("gemini-3-pro-image-preview", ⟨true⟩)]⟩⟩⟩) ⟨true, ("")⟩ =
      ⟨false, ("")⟩ ∧
    updateResolutionAvailability ("any-model") ("tuzi") none ⟨false, ("1K")⟩ =
      ⟨false, ("1K")⟩ :=
  ⟨(resolution_gating.2.2.2.2 ("gemini-3-pro-image-preview")
      ⟨[("gemini-3-pro-image-preview", ⟨true⟩)]⟩ ⟨true, ("")⟩).2.2 (by decide),
   resolution_gating.1 ("any-model") ("tuzi") none ⟨false, ("1K")⟩ (by decide)⟩

/-! ## Claim C6 — concurrency rule lookup -/

/-- Claim C6, counterexample: the code keys non-Google providers only by
provider name, so for provider `openrouter` with a model string that is
itself a table key the code returns the OpenRouter rule while the claimed
model-key-first fallback chain would return the flash-model rule. -/
theorem concurrency_rule_cex :
    getConcurrencyRule ("openrouter") ("google/gemini-2.5-flash-image") ≠
      getConcurrencyRuleChain ("openrouter") ("google/gemini-2.5-flash-image") := by
  decide

/-- Claim C6 (amended): for the Google provider the rule is found by exact
model-key match falling back to the `'default'` rule; for every other
provider by provider-key match falling back to the `'default'` rule (the
model key is never consulted); the lookup is total and always returns a
rule stored in the table. -/
theorem concurrency_rule_lookup :
    (∀ m : String, getConcurrencyRule ("google") m = (lookupRule m).getD defaultRule) ∧
    (∀ p m : String, p ≠ "google" →
      getConcurrencyRule p m = (lookupRule p).getD defaultRule) ∧
    (∀ p m : String, getConcurrencyRule p m ∈ CONCURRENCY_RULES.map Prod.snd) := by
  refine ⟨fun m => by simp [getConcurrencyRule], ?_, ?_⟩
  · intro p m hp
    simp [getConcurrencyRule, hp]
  · intro p m
    unfold getConcurrencyRule lookupRule
    have hdef : defaultRule ∈ CONCURRENCY_RULES.map Prod.snd := by decide
    by_cases hp : p = "google" <;> simp only [hp, if_true, if_false, ite_true, ite_false] <;>
      first
      | (rcases lookup_getD_mem CONCURRENCY_RULES m defaultRule with h | h
         · rw [h]; exact hdef
         · exact h)
      | (rcases lookup_getD_mem CONCURRENCY_RULES p defaultRule with h | h
         · rw [h]; exact hdef
         · exact h)

/-- Witness for C6: the TuZi provider resolves by provider key regardless
of the model string. -/
theorem concurrency_rule_lookup_witness :
    getConcurrencyRule ("tuzi") ("gemini-2.5-flash-image") =
      (lookupRule ("tuzi")).getD defaultRule :=
  concurrency_rule_lookup.2.1 ("tuzi") ("gemini-2.5-flash-image") (by decide)

/-! ## Claim C7 — bounded result feed -/

/-- Claim C7: an AUTO-mode append puts the new entries at the end and, when
the feed exceeds the capacity of 20, drops exactly the oldest entries
beyond capacity, preserving the order of the rest; 25 sequential
single-image batches leave exactly batches 6–25 in original order. -/
theorem bounded_feed_append :
    (∀ (α : Type) (g imgs : List α),
      appendFeed g imgs = (g ++ imgs).drop (g.length + imgs.length - MAX_IMAGES)) ∧
    (∀ (α : Type) (g imgs : List α),
      (appendFeed g imgs).length = min (g.length + imgs.length) MAX_IMAGES) ∧
    List.foldl appendFeed ([] : List Nat) ((List.range 25).map (fun i => [i + 1])) =
      (List.range 20).map (fun i => i + 6) := by
  have h1 : ∀ (α : Type) (g imgs : List α),
      appendFeed g imgs = (g ++ imgs).drop (g.length + imgs.length - MAX_IMAGES) := by
    intro α g imgs
    unfold appendFeed
    by_cases h : (g ++ imgs).length > MAX_IMAGES
    · rw [if_pos h, List.length_append]
    · rw [if_neg h]
      have h0 : g.length + imgs.length - MAX_IMAGES = 0 := by
        simp only [List.length_append] at h
        omega
      rw [h0, List.drop_zero]
  refine ⟨h1, ?_, by decide⟩
  intro α g imgs
  rw [h1]
  simp only [List.length_drop, List.length_append]
  omega

/-! ## Claim C8 — stop idempotence and full reset -/

/-- Claim C8: `stopAutoLoop` always yields the Idle state (flags down,
mode cleared, stats zeroed, session images emptied), so stopping twice
equals stopping once, and stopping when already idle is a no-op. -/
theorem stop_idempotent :
    (∀ w : WorkflowState, stopAutoLoop w = idleState) ∧
    (∀ w : WorkflowState, stopAutoLoop (stopAutoLoop w) = stopAutoLoop w) ∧
    stopAutoLoop idleState = idleState :=
  ⟨fun _ => rfl, fun _ => rfl, rfl⟩

/-! ## Claim C9 — configuration loading never fails -/

/-- Claim C9: every failed fetch outcome (network rejection, malformed
body, or a `success=false` payload) produces the hardcoded fallback
capability table flagged with `usingFallback=true`, and the returned
result always reports success, so configuration failure is never fatal. -/
theorem config_load_fallback :
    (∀ o : FetchOutcome, failedFetch o → loadConfiguration o = fallbackResult) ∧
    (∀ o : FetchOutcome, (loadConfiguration o).success = true) ∧
    fallbackResult = ⟨true, some fallbackConfig, true⟩ := by
  refine ⟨?_, ?_, rfl⟩
  · intro o h
    cases o with
    | rejected => rfl
    | badJson => rfl
    | ok p =>
      simp only [failedFetch] at h
      simp [loadConfiguration, h]
  · intro o
    cases o with
    | rejected => rfl
    | badJson => rfl
    | ok p => by_cases h : p.success <;> simp [loadConfiguration, h, fallbackResult]

/-- Witness for C9: a rejected fetch and an explicit `success=false`
payload both land on the fallback result. -/
theorem config_load_fallback_witness :
    loadConfiguration FetchOutcome.rejected = fallbackResult ∧
    loadConfiguration (FetchOutcome.ok ⟨false, none, none⟩) = fallbackResult :=
  ⟨config_load_fallback.1 FetchOutcome.rejected trivial,
   config_load_fallback.1 (FetchOutcome.ok ⟨false, none, none⟩) rfl⟩

/-! ## Decoder lemmas -/

/-- `processLine` never touches the buffer. -/
theorem processLine_buffer (parse : List Char → Option Frame) (st : DecState)
    (line : List Char) : (processLine parse st line).buffer = st.buffer := by
  unfold processLine
  repeat' split
  all_goals rfl

/-- `processLine` reads no field through the buffer, so presetting the
buffer commutes with it. -/
theorem processLine_setBuffer (parse : List Char → Option Frame) (st : DecState)
    (line b : List Char) :
    processLine parse { st with buffer := b } line =
      { processLine parse st line with buffer := b } := by
  unfold processLine
  repeat' split
  all_goals rfl

/-- Folding `processLine` commutes with presetting the buffer. -/
theorem foldl_processLine_setBuffer (parse : List Char → Option Frame)
    (ls : List (List Char)) :
    ∀ (st : DecState) (b : List Char),
      ls.foldl (processLine parse) { st with buffer := b } =
        { ls.foldl (processLine parse) st with buffer := b } := by
  induction ls with
  | nil => intro st b; rfl
  | cons l t ih =>
    intro st b
    simp only [List.foldl_cons]
    rw [processLine_setBuffer]
    exact ih (processLine parse st l) b

/-- Unfolding `splitLines` at a newline. -/
theorem splitLines_cons_newline (cs : List Char) :
    splitLines ('\n' :: cs) = ([] :: (splitLines cs).1, (splitLines cs).2) := by
  simp [splitLines]

/-- Unfolding `splitLines` at a non-newline character. -/
theorem splitLines_cons_other (c : Char) (cs : List Char) (hc : c ≠ '\n') :
    splitLines (c :: cs) =
      (match (splitLines cs).1 with
       | [] => ([], c :: (splitLines cs).2)
       | l :: ls => ((c :: l) :: ls, (splitLines cs).2)) := by
  simp only [splitLines, if_neg hc]

/-- A newline-free text is all remainder. -/
theorem splitLines_no_newline (l : List Char) (h : '\n' ∉ l) :
    splitLines l = ([], l) := by
  induction l with
  | nil => rfl
  | cons c cs ih =>
    have hc : c ≠ '\n' := fun he => h (he ▸ List.mem_cons_self c cs)
    have hcs : '\n' ∉ cs := fun hm => h (List.mem_cons_of_mem c hm)
    rw [splitLines_cons_other c cs hc, ih hcs]

/-- Splitting text that starts with one complete newline-free line. -/
theorem splitLines_line (l rest : List Char) (h : '\n' ∉ l) :
    splitLines (l ++ '\n' :: rest) =
      (l :: (splitLines rest).1, (splitLines rest).2) := by
  induction l with
  | nil => simpa using splitLines_cons_newline rest
  | cons c cs ih =>
    have hc : c ≠ '\n' := fun he => h (he ▸ List.mem_cons_self c cs)
    have hcs : '\n' ∉ cs := fun hm => h (List.mem_cons_of_mem c hm)
    rw [List.cons_append, splitLines_cons_other c _ hc, ih hcs]

/-- `feedChar` keeps the buffer newline-free. -/
theorem feedChar_buffer (parse : List Char → Option Frame) (st : DecState) (c : Char)
    (h : '\n' ∉ st.buffer) : '\n' ∉ (feedChar parse st c).buffer := by
  unfold feedChar
  by_cases hc : c = '\n'
  · simp [hc]
  · simp only [if_neg hc]
    intro hm
    rcases List.mem_append.mp hm with h1 | h1
    · exact h h1
    · exact hc (List.mem_singleton.mp h1).symm

/-- `feedText` keeps the buffer newline-free. -/
theorem feedText_buffer (parse : List Char → Option Frame) (text : List Char) :
    ∀ st : DecState, '\n' ∉ st.buffer → '\n' ∉ (feedText parse st text).buffer := by
  induction text with
  | nil => intro st h; exact h
  | cons c cs ih =>
    intro st h
    exact ih (feedChar parse st c) (feedChar_buffer parse st c h)

/-- The character-level loop computes exactly what one `feedChunk` call
computes: process the complete lines of `buffer ++ text`, hold back the
remainder. -/
theorem feedText_char (parse : List Char → Option Frame) (text : List Char) :
    ∀ st : DecState, '\n' ∉ st.buffer →
      feedText parse st text =
        { (splitLines (st.buffer ++ text)).1.foldl (processLine parse) st with
            buffer := (splitLines (st.buffer ++ text)).2 } := by
  induction text with
  | nil =>
    intro st h
    rw [List.append_nil, splitLines_no_newline st.buffer h]
    rfl
  | cons c cs ih =>
    intro st h
    by_cases hc : c = '\n'
    · subst hc
      have hstep : feedText parse st ('\n' :: cs) =
          feedText parse { processLine parse st st.buffer with buffer := [] } cs := by
        simp [feedText, feedChar]
      rw [hstep, ih _ (by simp)]
      rw [splitLines_line st.buffer cs h]
      simp only [List.nil_append, List.foldl_cons]
      rw [foldl_processLine_setBuffer]
    · have hstep : feedText parse st (c :: cs) =
          feedText parse { st with buffer := st.buffer ++ [c] } cs := by
        simp [feedText, feedChar, hc]
      have hb : '\n' ∉ st.buffer ++ [c] := by
        intro hm
        rcases List.mem_append.mp hm with h1 | h1
        · exact h h1
        · exact hc (List.mem_singleton.mp h1).symm
      rw [hstep, ih _ hb]
      have hassoc : (st.buffer ++ [c]) ++ cs = st.buffer ++ c :: cs := by simp
      rw [hassoc]
      rw [foldl_processLine_setBuffer]

/-- `feedChunk` and the character-level loop agree (for a newline-free
buffer, which is invariant). -/
theorem feedChunk_eq_feedText (parse : List Char → Option Frame) (st : DecState)
    (chunk : List Char) (h : '\n' ∉ st.buffer) :
    feedChunk parse st chunk = feedText parse st chunk := by
  rw [feedText_char parse chunk st h]
  rfl

/-- The whole decode depends only on the concatenation of the chunks:
`runChunks` equals the character-level loop over the joined text. -/
theorem runChunks_join (parse : List Char → Option Frame)
    (chunks : List (List Char)) :
    runChunks parse chunks = feedText parse initState chunks.flatten := by
  have haux : ∀ (cs : List (List Char)) (st : DecState), '\n' ∉ st.buffer →
      cs.foldl (feedChunk parse) st = feedText parse st cs.flatten := by
    intro cs
    induction cs with
    | nil => intro st _; rfl
    | cons c t ih =>
      intro st h
      rw [List.foldl_cons, feedChunk_eq_feedText parse st c h]
      rw [ih (feedText parse st c) (feedText_buffer parse c st h)]
      rw [List.flatten_cons]
      unfold feedText
      rw [List.foldl_append]
  exact haux chunks initState (by simp [initState])


/-- A line that yields no payload leaves the state unchanged. -/
theorem processLine_payload_none (parse : List Char → Option Frame)
    (st : DecState) (line : List Char) (h : payloadOf line = none) :
    processLine parse st line = st := by
  unfold payloadOf at h
  unfold processLine
  split at h
  next h1 => rw [if_pos h1]
  next h1 =>
    split at h
    next h2 =>
      split at h
      next h3 => rw [if_neg h1, if_pos h2, if_pos h3]
      next h3 => exact absurd h (by simp)
    next h2 => rw [if_neg h1, if_neg h2]

/-- A line with a payload is handed to the parse function exactly as the
loop body does. -/
theorem processLine_payload_some (parse : List Char → Option Frame)
    (st : DecState) (line data : List Char) (h : payloadOf line = some data) :
    processLine parse st line =
      (match parse data with
       | none => st
       | some f =>
         if errTruthy f.error then
           { st with hasError := true, errorMessage := (f.error).getD ("") }
         else
           { st with totalReceived := st.totalReceived + 1,
                     callbacks := st.callbacks ++ [f] }) := by
  unfold payloadOf at h
  unfold processLine
  split at h
  next h1 => exact absurd h (by simp)
  next h1 =>
    split at h
    next h2 =>
      split at h
      next h3 => exact absurd h (by simp)
      next h3 =>
        have hd : line.drop dataMark.length = data := Option.some.inj h
        subst hd
        rw [if_neg h1, if_pos h2, if_neg h3]
    next h2 => exact absurd h (by simp)

/-- Folding the per-line step over a line list: the buffer is untouched,
`totalReceived` grows by the number of image frames, `hasError` is set iff
some frame's error field is truthy, the recorded message is threaded
through the frames, and the callback receives exactly the image frames in
order. -/
theorem foldl_processLine_frames (parse : List Char → Option Frame)
    (lines : List (List Char)) :
    ∀ st : DecState,
      lines.foldl (processLine parse) st =
        { buffer := st.buffer,
          totalReceived := st.totalReceived + (imagesOf (framesOf parse lines)).length,
          hasError := st.hasError || (framesOf parse lines).any (fun f => errTruthy f.error),
          errorMessage := recordedMsg (framesOf parse lines) st.errorMessage,
          callbacks := st.callbacks ++ imagesOf (framesOf parse lines) } := by
  induction lines with
  | nil =>
    intro st
    simp [framesOf, imagesOf, recordedMsg]
  | cons l ls ih =>
    intro st
    rw [List.foldl_cons]
    cases hpl : payloadOf l with
    | none =>
      rw [processLine_payload_none parse st l hpl, ih]
      have hf : framesOf parse (l :: ls) = framesOf parse ls := by
        simp [framesOf, List.filterMap_cons, hpl]
      rw [hf]
    | some data =>
      rw [processLine_payload_some parse st l data hpl]
      cases hpd : parse data with
      | none =>
        simp only []
        rw [ih]
        have hf : framesOf parse (l :: ls) = framesOf parse ls := by
          simp [framesOf, List.filterMap_cons, hpl, hpd]
        rw [hf]
      | some f =>
        have hf : framesOf parse (l :: ls) = f :: framesOf parse ls := by
          simp [framesOf, List.filterMap_cons, hpl, hpd]
        by_cases he : errTruthy f.error
        · simp only [he, if_true]
          rw [ih]
          rw [hf]
          simp [imagesOf, recordedMsg, he]
        · simp only [he, if_false]
          rw [ih]
          rw [hf]
          simp only [DecState.mk.injEq]
          refine ⟨rfl, ?_, ?_, ?_, ?_⟩
          · simp [imagesOf, he]
            omega
          · simp only [List.any_cons]
            rw [Bool.not_eq_true] at he
            rw [he]
            simp
          · simp [recordedMsg, he]
          · simp [imagesOf, he]

/-- The full decode in terms of the complete lines of the joined stream
text: the callback list is exactly the image frames, `totalReceived`
their number, `hasError` the presence of a truthy error frame, and the
recorded message is threaded through the frames. -/
theorem runChunks_frames (parse : List Char → Option Frame)
    (chunks : List (List Char)) :
    runChunks parse chunks =
      { buffer := (splitLines chunks.flatten).2,
        totalReceived :=
          (imagesOf (framesOf parse (splitLines chunks.flatten).1)).length,
        hasError :=
          (framesOf parse (splitLines chunks.flatten).1).any
            (fun f => errTruthy f.error),
        errorMessage :=
          recordedMsg (framesOf parse (splitLines chunks.flatten).1) (""),
        callbacks := imagesOf (framesOf parse (splitLines chunks.flatten).1) } := by
  rw [runChunks_join]
  rw [feedText_char parse chunks.flatten initState (by simp [initState])]
  rw [foldl_processLine_frames]
  simp [initState]

/-! ## Claim C1 — stream decoder error semantics -/

/-- Claim C1, counterexample: the loop tests JavaScript truthiness of the
error field, so the single frame `data: \x7b"error":""\x7d` — whose payload
does carry an error field — is counted as an image and the decode
succeeds, refuting the claimed "success=false iff some payload carried an
error field or no images". -/
theorem stream_error_field_cex :
    ¬ (∀ (parse : List Char → Option Frame) (chunks : List (List Char)),
        ((decodeStream parse chunks).success = false ↔
          ((framesOf parse (splitLines chunks.flatten).1).any
              (fun f => (f.error).isSome) = true ∨
            (decodeStream parse chunks).totalReceived = 0))) := by
  intro h
  have h2 := h exParse [dataMark ++ payloadEmptyErr ++ ['\n']]
  have hfalse : (decodeStream exParse [dataMark ++ payloadEmptyErr ++ ['\n']]).success
      = false := h2.mpr (Or.inl (by decide))
  exact absurd hfalse (by decide)

/-- Claim C1 (amended): `success=false` iff some decoded frame payload
carried a truthy (non-empty) error field or zero image frames were
received; a present-but-empty error field counts as an image frame.  The
decoder keeps draining after an error frame, invoking the callback for
every valid image frame in order (`totalReceived` counts them), and
malformed frames never appear among the decoded frames, so they cannot
fail the decode; on error the last recorded message is returned. -/
theorem stream_error_semantics (parse : List Char → Option Frame)
    (chunks : List (List Char)) :
    ((decodeStream parse chunks).success = false ↔
      ((framesOf parse (splitLines chunks.flatten).1).any
          (fun f => errTruthy f.error) = true ∨
        imagesOf (framesOf parse (splitLines chunks.flatten).1) = [])) ∧
    (decodeStream parse chunks).totalReceived =
      (imagesOf (framesOf parse (splitLines chunks.flatten).1)).length ∧
    (runChunks parse chunks).callbacks =
      imagesOf (framesOf parse (splitLines chunks.flatten).1) ∧
    ((framesOf parse (splitLines chunks.flatten).1).any
        (fun f => errTruthy f.error) = true →
      (decodeStream parse chunks).error =
        some (recordedMsg (framesOf parse (splitLines chunks.flatten).1) (""))) := by
  have hrc := runChunks_frames parse chunks
  unfold decodeStream
  rw [hrc]
  unfold finishState
  by_cases he : (framesOf parse (splitLines chunks.flatten).1).any
      (fun f => errTruthy f.error)
  · simp [he]
  · simp only [he, Bool.false_eq_true, if_false, ite_false]
    by_cases hz :
        (imagesOf (framesOf parse (splitLines chunks.flatten).1)).length = 0
    · simp [hz, List.length_eq_zero.mp hz]
    · simp [hz, List.length_eq_zero, he]
      intro hcon
      exact absurd (congrArg List.length hcon) (by simpa using hz)

/-- Witness for C1: a stream carrying one valid image frame and one error
frame `\x7b"error":"boom"\x7d` reports that message. -/
theorem stream_error_semantics_witness :
    (decodeStream exParse [frameLineA ++ dataMark ++ payloadBoom ++ ['\n']]).error =
      some ("boom") := by
  have h := (stream_error_semantics exParse
    [frameLineA ++ dataMark ++ payloadBoom ++ ['\n']]).2.2.2 (by decide)
  rw [h]
  decide

/-! ## Claim C3 — decoder invariance under re-chunking -/

/-- Claim C3: the decode outcome depends only on the concatenation of the
chunks, so splitting the stream at arbitrary boundaries (including
mid-frame) changes nothing; in particular every chunking of the two-frame
example stream yields exactly the two callbacks in index order and the
result `⟨true, 2, none⟩`, the `[DONE]` sentinel being skipped without
error. -/
theorem stream_rechunk_invariant :
    (∀ (parse : List Char → Option Frame) (c1 c2 : List (List Char)),
      c1.flatten = c2.flatten → runChunks parse c1 = runChunks parse c2) ∧
    (∀ chunks : List (List Char), chunks.flatten = exText →
      (runChunks exParse chunks).callbacks = [⟨none, 1⟩, ⟨none, 2⟩] ∧
      decodeStream exParse chunks = ⟨true, 2, none⟩) := by
  have hinv : ∀ (parse : List Char → Option Frame) (c1 c2 : List (List Char)),
      c1.flatten = c2.flatten → runChunks parse c1 = runChunks parse c2 := by
    intro parse c1 c2 h
    rw [runChunks_join, runChunks_join, h]
  refine ⟨hinv, ?_⟩
  intro chunks h
  have h1 : runChunks exParse chunks = runChunks exParse [exText] :=
    hinv exParse chunks [exText] (by simpa using h)
  constructor
  · rw [h1]
    decide
  · unfold decodeStream
    rw [h1]
    decide

/-- Witness for C3: splitting the example stream mid-frame after 10 bytes
decodes identically. -/
theorem stream_rechunk_invariant_witness :
    (runChunks exParse [exText.take 10, exText.drop 10]).callbacks =
      [⟨none, 1⟩, ⟨none, 2⟩] ∧
    decodeStream exParse [exText.take 10, exText.drop 10] = ⟨true, 2, none⟩ :=
  stream_rechunk_invariant.2 [exText.take 10, exText.drop 10] (by simp)

/-! ## Claim C10 — non-frame lines are ignored -/

/-- Claim C10: a complete non-blank line without the `'data: '` marker is
silently ignored — removing it from the stream leaves the whole decode
(state and result, hence callbacks, `totalReceived` and error) unchanged,
for every chunking of either stream. -/
theorem nonframe_line_ignored (parse : List Char → Option Frame)
    (a line b : List Char) (c1 c2 : List (List Char))
    (ha : (splitLines a).2 = [])
    (hnl : '\n' ∉ line)
    (hblank : isBlank line = false)
    (hmark : dataMark.isPrefixOf line = false)
    (h1 : c1.flatten = a ++ line ++ '\n' :: b)
    (h2 : c2.flatten = a ++ b) :
    runChunks parse c1 = runChunks parse c2 ∧
    decodeStream parse c1 = decodeStream parse c2 := by
  suffices hr : runChunks parse c1 = runChunks parse c2 by
    refine ⟨hr, ?_⟩
    unfold decodeStream
    rw [hr]
  rw [runChunks_join, runChunks_join, h1, h2]
  have hsplit : ∀ t, feedText parse initState (a ++ t) =
      feedText parse (feedText parse initState a) t := by
    intro t
    unfold feedText
    rw [List.foldl_append]
  rw [List.append_assoc, hsplit (line ++ '\n' :: b), hsplit b]
  have hbuf0 : (feedText parse initState a).buffer = [] := by
    rw [feedText_char parse a initState (by simp [initState])]
    simpa [initState] using ha
  have hnlb : '\n' ∉ (feedText parse initState a).buffer := by
    rw [hbuf0]
    simp
  rw [feedText_char parse (line ++ '\n' :: b) _ hnlb,
      feedText_char parse b _ hnlb, hbuf0]
  simp only [List.nil_append]
  rw [splitLines_line line b hnl]
  simp only [List.foldl_cons]
  have hpl : payloadOf line = none := by
    unfold payloadOf
    rw [if_neg (by simp [hblank]), if_neg (by simp [hmark])]
  rw [processLine_payload_none parse _ line hpl]

/-- Witness for C10: inserting the line `event: ping` between the two
example frames changes nothing. -/
theorem nonframe_line_ignored_witness :
    decodeStream exParse [frameLineA ++ "event: ping".toList ++ '\n' :: frameLineB] =
      decodeStream exParse [frameLineA ++ frameLineB] :=
  (nonframe_line_ignored exParse frameLineA ("event: ping".toList) frameLineB
    [frameLineA ++ "event: ping".toList ++ '\n' :: frameLineB]
    [frameLineA ++ frameLineB]
    (by decide) (by decide) (by decide) (by decide) (by simp) (by simp)).2

end ImageChat
